import Mathlib

/-!
# CouchDB Prometheus exporter: stats client and collector

A shallow embedding of `lib/couchdb-client.go`, `lib/collector.go` and
`lib/collector-v1.go`.

* Go `map[string]T` is an association list `GoMap T`; `m[k] = v` is `mapSet`,
  the comma-ok lookup is `mapGet`, `range` walks the list. Go fixes no order for
  `range` over a map; the statements below hold for every list, so for every order.
* Go `(T, error)` results are `Except Error T`.
* Go `float64` is `Float64 := Int`: the fields hold event counts and byte sizes,
  and the only arithmetic the code does on them (`++` and one subtraction) is
  exact on the integers a `float64` holds exactly (magnitude up to 2^53).
* `http.NewRequest`, `json.Unmarshal` and the go-version library are outside the
  repository; they are the fields of `Lib`. The transport is the field `client` of
  `CouchdbClient`, a function of the request: the server does not change during a
  poll.
* Logging (`glog`, `fmt.Printf`) is left out.
-/

namespace CouchdbExporter

/-! ## Go maps -/

/-- Go `float64`, on its exactly represented integers. -/
abbrev Float64 := Int

/-- Go `error`, by its message. -/
abbrev Error := String

/-- Go `map[string]T`: an association list, filled through `mapSet` only. -/
abbrev GoMap (α : Type) := List (String × α)

/-- Comma-ok lookup `v, ok := m[k]`. -/
def mapGet {α : Type} : GoMap α → String → Option α
  | [], _ => none
  | (k', v) :: rest, k => if k' = k then some v else mapGet rest k

/-- Assignment `m[k] = v`: overwrite the entry of `k`, or add one. -/
def mapSet {α : Type} : GoMap α → String → α → GoMap α
  | [], k, v => [(k, v)]
  | (k', v') :: rest, k, v =>
    if k' = k then (k, v) :: rest else (k', v') :: mapSet rest k v

/-- The keys of a map, in range order. -/
def mapKeys {α : Type} (m : GoMap α) : List String := m.map Prod.fst

/-! ## Active tasks (`collector.go`, `collector-v1.go` lines 47-72) -/

/-- Modelled from the spec: the `ActiveTask` record (its declaration is not among the
sources); `Node` and `Type` are the two fields the code reads. -/
structure ActiveTask where
  Node : String
  Type_ : String
deriving DecidableEq, Repr

/-- Modelled from the spec: `ActiveTasksResponse`, an ordered sequence of raw
active-task records (a slice of struct values). -/
abbrev ActiveTasksResponse := List ActiveTask

/-- The counters of `collector.go`; the zero value `ActiveTaskTypes{}` is `{}`. -/
structure ActiveTaskTypes where
  DatabaseCompaction : Float64 := 0
  ViewCompaction : Float64 := 0
  Indexer : Float64 := 0
  Replication : Float64 := 0
  Sum : Float64 := 0
deriving DecidableEq, Repr

/-- The `switch taskType` of `collectV1` (the `fmt.Printf` of the default case writes
to standard output only). -/
def countTask (types : ActiveTaskTypes) (taskType : String) : ActiveTaskTypes :=
  if taskType = "database_compaction" then
    { types with DatabaseCompaction := types.DatabaseCompaction + 1, Sum := types.Sum + 1 }
  else if taskType = "view_compaction" then
    { types with ViewCompaction := types.ViewCompaction + 1, Sum := types.Sum + 1 }
  else if taskType = "indexer" then
    { types with Indexer := types.Indexer + 1, Sum := types.Sum + 1 }
  else if taskType = "replication" then
    { types with Replication := types.Replication + 1, Sum := types.Sum + 1 }
  else
    { types with Sum := types.Sum + 1 }

/-- One iteration of the loop over `stats.ActiveTasksResponse`. -/
def aggregateStep (activeTasksByNode : GoMap ActiveTaskTypes) (task : ActiveTask) :
    GoMap ActiveTaskTypes :=
  let byNode :=
    match mapGet activeTasksByNode task.Node with
    | none => mapSet activeTasksByNode task.Node {}
    | some _ => activeTasksByNode
  let types := (mapGet byNode task.Node).getD {}
  mapSet byNode task.Node (countTask types task.Type_)

/-- The aggregation loop of `collectV1`: `activeTasksByNode` after the last task. -/
def aggregateActiveTasks (tasks : ActiveTasksResponse) : GoMap ActiveTaskTypes :=
  tasks.foldl aggregateStep []

/-- The task kinds the `switch` names. -/
def knownTaskTypes : List String :=
  ["database_compaction", "view_compaction", "indexer", "replication"]

/-- The `Type` fields of the tasks of one node, in order. -/
def nodeTaskTypes (tasks : ActiveTasksResponse) (node : String) : List String :=
  (tasks.filter (fun t => t.Node = node)).map (fun t => t.Type_)

/-- The sum of the four named counters. -/
def ActiveTaskTypes.named (c : ActiveTaskTypes) : Float64 :=
  c.DatabaseCompaction + c.ViewCompaction + c.Indexer + c.Replication

/-! ## The HTTP client (`couchdb-client.go`) -/

/-- The credentials of `couchdb-client.go`. -/
structure BasicAuth where
  Username : String
  Password : String
deriving DecidableEq, Repr

/-- An `http.Request` as far as the client shapes it: method, address and the
credentials `SetBasicAuth` puts on it. -/
structure Request where
  method : String
  uri : String
  auth : Option BasicAuth
deriving DecidableEq, Repr

/-- An `http.Response` after `ioutil.ReadAll(resp.Body)`: `Body` holds the bytes read
and `ReadErr` the error of the read, if any. -/
structure Response where
  Status : String
  StatusCode : Int
  Body : String
  ReadErr : Option Error
deriving DecidableEq, Repr

/-- The `RootResponse` of `couchdb-client.go`. -/
structure RootResponse where
  Couchdb : String
  Version : String
deriving DecidableEq, Repr

/-- The `MembershipResponse` of `couchdb-client.go`. -/
structure MembershipResponse where
  AllNodes : List String
  ClusterNodes : List String
deriving DecidableEq, Repr

/-- Modelled from the spec: one counter document of the stats response (the
declaration is not among the sources); `Current` is the field `collectV1` reads. -/
structure Counter where
  Current : Float64
deriving DecidableEq, Repr

/-- Modelled from the spec: the `Couchdb` part of `StatsResponse`, with the fields
`collectV1` reads. -/
structure CouchdbStats where
  AuthCacheHits : Counter
  AuthCacheMisses : Counter
  DatabaseReads : Counter
  DatabaseWrites : Counter
  OpenDatabases : Counter
  OpenOsFiles : Counter
  RequestTime : Counter
deriving DecidableEq, Repr

/-- Modelled from the spec: the `HttpdRequestMethods` part of `StatsResponse`. -/
structure HttpdRequestMethods where
  COPY : Counter
  DELETE : Counter
  GET : Counter
  HEAD : Counter
  POST : Counter
  PUT : Counter
deriving DecidableEq, Repr

/-- Modelled from the spec: the `Httpd` part of `StatsResponse`. -/
structure HttpdStats where
  BulkRequests : Counter
  ClientsRequestingChanges : Counter
  Requests : Counter
  TemporaryViewReads : Counter
  ViewReads : Counter
deriving DecidableEq, Repr

/-- Modelled from the spec: the per-node `StatsResponse` (the declaration is not among
the sources), with the fields `collectV1` reads; `HttpdStatusCodes` is a map keyed
by status code. -/
structure StatsResponse where
  Couchdb : CouchdbStats
  HttpdStatusCodes : GoMap Counter
  HttpdRequestMethods : HttpdRequestMethods
  Httpd : HttpdStats
deriving DecidableEq, Repr

/-- Modelled from the spec: `DatabaseStats` (the declaration is not among the
sources): disk size, data size and the derived overhead. -/
structure DatabaseStats where
  DiskSize : Float64 := 0
  DataSize : Float64 := 0
  DiskSizeOverhead : Float64 := 0
deriving DecidableEq, Repr

/-- Modelled from the spec: `DatabaseStatsByDbName`, database name to stats. -/
abbrev DatabaseStatsByDbName := GoMap DatabaseStats

/-- Modelled from the spec: the `Stats` aggregate of one poll (the declaration is not
among the sources), with the four fields `getStats` fills. -/
structure Stats where
  StatsByNodeName : GoMap StatsResponse
  DatabaseStatsByNodeName : GoMap DatabaseStatsByDbName
  ActiveTasksResponse : ActiveTasksResponse
  ApiVersion : String
deriving DecidableEq, Repr

/-- The libraries the client calls: `http.NewRequest`, `json.Unmarshal` at each target
type, and go-version (`NewConstraint`, `NewVersion`, `Constraints.Check`; a parsed
version is its list of segments). -/
structure Lib where
  NewRequest : String → String → Except Error Request
  UnmarshalRoot : String → Except Error RootResponse
  UnmarshalMembership : String → Except Error MembershipResponse
  UnmarshalStats : String → Except Error StatsResponse
  UnmarshalDatabaseStats : String → Except Error DatabaseStats
  UnmarshalActiveTasks : String → Except Error ActiveTasksResponse
  NewConstraint : String → Except Error (List Nat → Bool)
  NewVersion : String → Except Error (List Nat)

/-- The `CouchdbClient` of `couchdb-client.go`; `client` is `c.client.Do` followed by
the read of the body. -/
structure CouchdbClient where
  baseUri : String
  basicAuth : BasicAuth
  databases : List String
  client : Request → Except Error Response

/-- The request after the optional `req.SetBasicAuth`. -/
def withBasicAuth (c : CouchdbClient) (req : Request) : Request :=
  if c.basicAuth.Username.length > 0 then { req with auth := some c.basicAuth } else req

/-- `CouchdbClient.request`. -/
def request (lib : Lib) (c : CouchdbClient) (method uri : String) : Except Error String :=
  match lib.NewRequest method uri with
  | .error err => .error err
  | .ok req =>
    match c.client (withBasicAuth c req) with
    | .error err => .error err
    | .ok resp =>
      if resp.StatusCode < 200 ∨ resp.StatusCode ≥ 400 then
        let respData :=
          match resp.ReadErr with
          | some err => err
          | none => resp.Body
        .error ("Status " ++ resp.Status ++ " (" ++ toString resp.StatusCode ++ "): " ++ respData)
      else
        .ok resp.Body

/-- `CouchdbClient.getServerVersion`. -/
def getServerVersion (lib : Lib) (c : CouchdbClient) : Except Error String :=
  match request lib c "GET" (c.baseUri ++ "/") with
  | .error err => .error err
  | .ok data =>
    match lib.UnmarshalRoot data with
    | .error err => .error err
    | .ok root => .ok root.Version

/-- `CouchdbClient.isCouchDbV2`. -/
def isCouchDbV2 (lib : Lib) (c : CouchdbClient) : Except Error Bool :=
  match lib.NewConstraint ">= 2.0" with
  | .error err => .error err
  | .ok clusteredCouch =>
    match getServerVersion lib c with
    | .error err => .error err
    | .ok serverVersion =>
      match lib.NewVersion serverVersion with
      | .error err => .error err
      | .ok couchDbVersion => .ok (clusteredCouch couchDbVersion)

/-- `CouchdbClient.getNodeNames`. -/
def getNodeNames (lib : Lib) (c : CouchdbClient) : Except Error (List String) :=
  match request lib c "GET" (c.baseUri ++ "/_membership") with
  | .error err => .error err
  | .ok data =>
    match lib.UnmarshalMembership data with
    | .error err => .error err
    | .ok membership => .ok membership.ClusterNodes

/-- `CouchdbClient.getNodeBaseUrisByNodeName`. -/
def getNodeBaseUrisByNodeName (lib : Lib) (c : CouchdbClient) (baseUri : String) :
    Except Error (GoMap String) :=
  match getNodeNames lib c with
  | .error err => .error err
  | .ok names =>
    .ok (names.foldl (fun urisByNodeName name =>
      mapSet urisByNodeName name (baseUri ++ "/_node/" ++ name)) [])

/-- The loop of `getStatsByNodeName` over the entries of `urisByNodeName` still to
visit, with `statsByNodeName` so far. -/
def getStatsByNodeNameLoop (lib : Lib) (c : CouchdbClient) :
    List (String × String) → GoMap StatsResponse → Except Error (GoMap StatsResponse)
  | [], statsByNodeName => .ok statsByNodeName
  | (name, uri) :: rest, statsByNodeName =>
    match request lib c "GET" (uri ++ "/_stats") with
    | .error err => .error ("Error reading couchdb stats: " ++ err)
    | .ok data =>
      match lib.UnmarshalStats data with
      | .error err => .error ("error unmarshalling stats: " ++ err)
      | .ok stats => getStatsByNodeNameLoop lib c rest (mapSet statsByNodeName name stats)

/-- `CouchdbClient.getStatsByNodeName`. -/
def getStatsByNodeName (lib : Lib) (c : CouchdbClient) (urisByNodeName : GoMap String) :
    Except Error (GoMap StatsResponse) :=
  getStatsByNodeNameLoop lib c urisByNodeName []

/-- The inner loop of `getDatabasesStatsByNodeName` over the database names still to
visit, with the map `dbStatsByDbName[name]` so far. -/
def getDatabasesStatsLoop (lib : Lib) (c : CouchdbClient) :
    List String → DatabaseStatsByDbName → Except Error DatabaseStatsByDbName
  | [], byDbName => .ok byDbName
  | dbName :: rest, byDbName =>
    match request lib c "GET" (c.baseUri ++ "/" ++ dbName) with
    | .error err => .error ("Error reading database \x27" ++ dbName ++ "\x27 stats: " ++ err)
    | .ok data =>
      match lib.UnmarshalDatabaseStats data with
      | .error err => .error ("error unmarshalling database \x27" ++ dbName ++ "\x27 stats: " ++ err)
      | .ok decoded =>
        let dbStats : DatabaseStats :=
          { decoded with DiskSizeOverhead := decoded.DiskSize - decoded.DataSize }
        getDatabasesStatsLoop lib c rest (mapSet byDbName dbName dbStats)

/-- The outer loop of `getDatabasesStatsByNodeName` over the entries of
`urisByNodeName` still to visit. -/
def getDatabasesStatsByNodeNameLoop (lib : Lib) (c : CouchdbClient) :
    List (String × String) → GoMap DatabaseStatsByDbName →
      Except Error (GoMap DatabaseStatsByDbName)
  | [], dbStatsByDbName => .ok dbStatsByDbName
  | (name, _) :: rest, dbStatsByDbName =>
    match getDatabasesStatsLoop lib c c.databases [] with
    | .error err => .error err
    | .ok byDbName =>
      getDatabasesStatsByNodeNameLoop lib c rest (mapSet dbStatsByDbName name byDbName)

/-- `CouchdbClient.getDatabasesStatsByNodeName`. -/
def getDatabasesStatsByNodeName (lib : Lib) (c : CouchdbClient)
    (urisByNodeName : GoMap String) : Except Error (GoMap DatabaseStatsByDbName) :=
  getDatabasesStatsByNodeNameLoop lib c urisByNodeName []

/-- The `range` loop of `getActiveTasks`. `activeTask` is the loop variable, a copy of
the slice element; the body assigns to the copy and the slice `activeTasks`, carried
as the second argument, is not written. -/
def normalizeNodeLoop : List ActiveTask → ActiveTasksResponse → ActiveTasksResponse
  | [], activeTasks => activeTasks
  | activeTask :: rest, activeTasks =>
    let _activeTask : ActiveTask :=
      if activeTask.Node ≠ "" then { activeTask with Node := "master" } else activeTask
    normalizeNodeLoop rest activeTasks

/-- `CouchdbClient.getActiveTasks`. -/
def getActiveTasks (lib : Lib) (c : CouchdbClient) : Except Error ActiveTasksResponse :=
  match request lib c "GET" (c.baseUri ++ "/_active_tasks") with
  | .error err => .error ("Error reading active tasks: " ++ err)
  | .ok data =>
    match lib.UnmarshalActiveTasks data with
    | .error err => .error ("error unmarshalling active tasks: " ++ err)
    | .ok activeTasks => .ok (normalizeNodeLoop activeTasks activeTasks)

/-- `CouchdbClient.getStats`. -/
def getStats (lib : Lib) (c : CouchdbClient) : Except Error Stats :=
  match isCouchDbV2 lib c with
  | .error err => .error err
  | .ok true =>
    match getNodeBaseUrisByNodeName lib c c.baseUri with
    | .error err => .error err
    | .ok urisByNode =>
      match getStatsByNodeName lib c urisByNode with
      | .error err => .error err
      | .ok nodeStats =>
        match getDatabasesStatsByNodeName lib c urisByNode with
        | .error err => .error err
        | .ok databaseStats =>
          match getActiveTasks lib c with
          | .error err => .error err
          | .ok activeTasks => .ok ⟨nodeStats, databaseStats, activeTasks, "2"⟩
  | .ok false =>
    let urisByNode : GoMap String := [("master", c.baseUri)]
    match getStatsByNodeName lib c urisByNode with
    | .error err => .error err
    | .ok nodeStats =>
      match getDatabasesStatsByNodeName lib c urisByNode with
      | .error err => .error err
      | .ok databaseStats =>
        match getActiveTasks lib c with
        | .error err => .error err
        | .ok activeTasks => .ok ⟨nodeStats, databaseStats, activeTasks, "1"⟩

/-! ## The collector (`collector.go`, `collector-v1.go`) -/

/-- One labeled observation: the gauge (by the name of its `Exporter` field), the
label values given to `WithLabelValues`, and the value. -/
structure Metric where
  name : String
  labels : List String
  value : Float64
deriving DecidableEq, Repr

/-- The children of all the `GaugeVec` fields of the `Exporter`: one entry for each
gauge and label combination that was ever set. -/
abbrev Gauges := List Metric

/-- `e.<name>.WithLabelValues(labels...).Set(value)`: the child of these label values
is created on first use and overwritten afterwards. -/
def setGauge : Gauges → String → List String → Float64 → Gauges
  | [], name, labels, value => [⟨name, labels, value⟩]
  | m :: rest, name, labels, value =>
    if m.name = name ∧ m.labels = labels then ⟨name, labels, value⟩ :: rest
    else m :: setGauge rest name labels value

/-- `e.<name>.Collect(ch)`: every child of the vector is sent. -/
def collectVec (gauges : Gauges) (name : String) : List Metric :=
  gauges.filter (fun m => m.name = name)

/-- Modelled from the spec: the `Exporter` (the declaration is not among the sources):
the liveness gauge `up`, the gauge vectors, the client and the configured databases. -/
structure Exporter where
  up : Float64
  gauges : Gauges
  client : CouchdbClient
  databases : List String

/-- `exposedHttpStatusCodes` of `collector.go`. -/
def exposedHttpStatusCodes : List String :=
  ["200", "201", "202", "301", "304", "400", "401", "403", "404", "405", "409", "412", "500"]

/-- The gauge vectors in the order `collect` sends them. -/
def gaugeVecNames : List String :=
  ["authCacheHits", "authCacheMisses", "databaseReads", "databaseWrites", "openDatabases",
   "openOsFiles", "requestTime",
   "httpdStatusCodes", "httpdRequestMethods",
   "bulkRequests", "clientsRequestingChanges", "requests", "temporaryViewReads", "viewReads",
   "diskSize", "dataSize", "diskSizeOverhead",
   "activeTasks", "activeTasksDatabaseCompaction", "activeTasksViewCompaction",
   "activeTasksIndexer", "activeTasksReplication"]

/-- The loop of `collectV1` over `exposedHttpStatusCodes` for one node. -/
def collectStatusCodes (name : String) (nodeStats : StatsResponse) :
    List String → Gauges → Gauges
  | [], g => g
  | code :: rest, g =>
    match mapGet nodeStats.HttpdStatusCodes code with
    | some counter =>
      collectStatusCodes name nodeStats rest
        (setGauge g "httpdStatusCodes" [code, name] counter.Current)
    | none => collectStatusCodes name nodeStats rest g

/-- The body of the first loop of `collectV1`, for one entry of `StatsByNodeName`. -/
def collectNodeStats (exposed : List String) (g : Gauges) (name : String)
    (nodeStats : StatsResponse) : Gauges :=
  let g := setGauge g "authCacheHits" [name] nodeStats.Couchdb.AuthCacheHits.Current
  let g := setGauge g "authCacheMisses" [name] nodeStats.Couchdb.AuthCacheMisses.Current
  let g := setGauge g "databaseReads" [name] nodeStats.Couchdb.DatabaseReads.Current
  let g := setGauge g "databaseWrites" [name] nodeStats.Couchdb.DatabaseWrites.Current
  let g := setGauge g "openDatabases" [name] nodeStats.Couchdb.OpenDatabases.Current
  let g := setGauge g "openOsFiles" [name] nodeStats.Couchdb.OpenOsFiles.Current
  let g := setGauge g "requestTime" [name] nodeStats.Couchdb.RequestTime.Current
  let g := collectStatusCodes name nodeStats exposed g
  let g := setGauge g "httpdRequestMethods" ["COPY", name] nodeStats.HttpdRequestMethods.COPY.Current
  let g := setGauge g "httpdRequestMethods" ["DELETE", name] nodeStats.HttpdRequestMethods.DELETE.Current
  let g := setGauge g "httpdRequestMethods" ["GET", name] nodeStats.HttpdRequestMethods.GET.Current
  let g := setGauge g "httpdRequestMethods" ["HEAD", name] nodeStats.HttpdRequestMethods.HEAD.Current
  let g := setGauge g "httpdRequestMethods" ["POST", name] nodeStats.HttpdRequestMethods.POST.Current
  let g := setGauge g "httpdRequestMethods" ["PUT", name] nodeStats.HttpdRequestMethods.PUT.Current
  let g := setGauge g "bulkRequests" [name] nodeStats.Httpd.BulkRequests.Current
  let g := setGauge g "clientsRequestingChanges" [name] nodeStats.Httpd.ClientsRequestingChanges.Current
  let g := setGauge g "requests" [name] nodeStats.Httpd.Requests.Current
  let g := setGauge g "temporaryViewReads" [name] nodeStats.Httpd.TemporaryViewReads.Current
  setGauge g "viewReads" [name] nodeStats.Httpd.ViewReads.Current

/-- The body of the second loop of `collectV1`, for one node and one database name; a
database missing from `dbStats` reads as the zero value. -/
def collectDatabaseStats (name : String) (dbStats : DatabaseStatsByDbName) (g : Gauges)
    (dbName : String) : Gauges :=
  let stats : DatabaseStats := (mapGet dbStats dbName).getD {}
  let g := setGauge g "diskSize" [name, dbName] stats.DiskSize
  let g := setGauge g "dataSize" [name, dbName] stats.DataSize
  setGauge g "diskSizeOverhead" [name, dbName] stats.DiskSizeOverhead

/-- The body of the last loop of `collectV1`, for one entry of `activeTasksByNode`. -/
def collectActiveTasks (g : Gauges) (nodeName : String) (tasks : ActiveTaskTypes) : Gauges :=
  let g := setGauge g "activeTasks" [nodeName] tasks.Sum
  let g := setGauge g "activeTasksDatabaseCompaction" [nodeName] tasks.DatabaseCompaction
  let g := setGauge g "activeTasksViewCompaction" [nodeName] tasks.ViewCompaction
  let g := setGauge g "activeTasksIndexer" [nodeName] tasks.Indexer
  setGauge g "activeTasksReplication" [nodeName] tasks.Replication

/-- `Exporter.collectV1`, on the gauge vectors (its error result is always `nil`). -/
def collectV1 (g : Gauges) (stats : Stats) (exposedHttpStatusCodes databases : List String) :
    Gauges :=
  let g := stats.StatsByNodeName.foldl
    (fun g entry => collectNodeStats exposedHttpStatusCodes g entry.1 entry.2) g
  let g := stats.DatabaseStatsByNodeName.foldl
    (fun g entry => databases.foldl (collectDatabaseStats entry.1 entry.2) g) g
  let activeTasksByNode := aggregateActiveTasks stats.ActiveTasksResponse
  activeTasksByNode.foldl (fun g entry => collectActiveTasks g entry.1 entry.2) g

/-- The type of `Exporter.collectV2`, whose file is not among the sources: like
`collectV1` it gets the stats, the exposed status codes and the database names, and
writes the gauge vectors. -/
abbrev CollectV2 := Gauges → Stats → List String → List String → Gauges

/-- The outcome of one `collect`: the exporter afterwards, the metrics sent on `ch` in
order, and the returned error. -/
structure CollectResult where
  exporter : Exporter
  sent : List Metric
  err : Option Error

/-- The metric the deferred `sendStatus` sends: the gauge `up` at its current value. -/
def upMetric (e : Exporter) : Metric := ⟨"up", [], e.up⟩

/-- `Exporter.collect`. The deferred `sendStatus` runs last on both paths. -/
def collect (lib : Lib) (collectV2 : CollectV2) (e : Exporter) : CollectResult :=
  let e : Exporter := { e with up := 0 }
  match getStats lib e.client with
  | .error err => ⟨e, [upMetric e], some ("Error reading couchdb stats: " ++ err)⟩
  | .ok stats =>
    let e : Exporter := { e with up := 1 }
    let gauges :=
      if stats.ApiVersion = "2" then collectV2 e.gauges stats exposedHttpStatusCodes e.databases
      else collectV1 e.gauges stats exposedHttpStatusCodes e.databases
    let e : Exporter := { e with gauges := gauges }
    ⟨e, (gaugeVecNames.map (collectVec e.gauges)).flatten ++ [upMetric e], none⟩

/-! ## The writes of one poll

`collectV1` is a sequence of `Set` calls whose gauges, label values and values come
from the stats alone; `writesV1` lists them in order. -/

/-- The gauge and the label values of a metric. -/
def Metric.key (m : Metric) : String × List String := (m.name, m.labels)

/-- The value of the child of gauge `name` with these label values, if there is one. -/
def gaugeGet : Gauges → String → List String → Option Float64
  | [], _, _ => none
  | m :: rest, name, labels =>
    if m.name = name ∧ m.labels = labels then some m.value else gaugeGet rest name labels

/-- A sequence of `Set` calls, applied in order. -/
def applyWrites (g : Gauges) (writes : List Metric) : Gauges :=
  writes.foldl (fun g w => setGauge g w.name w.labels w.value) g

/-- The `Set` calls of `collectStatusCodes`. -/
def statusCodeWrites (name : String) (nodeStats : StatsResponse) (codes : List String) :
    List Metric :=
  codes.filterMap (fun code =>
    (mapGet nodeStats.HttpdStatusCodes code).map
      (fun counter => ⟨"httpdStatusCodes", [code, name], counter.Current⟩))

/-- The `Set` calls of `collectNodeStats`. -/
def nodeStatsWrites (exposed : List String) (name : String) (nodeStats : StatsResponse) :
    List Metric :=
  [⟨"authCacheHits", [name], nodeStats.Couchdb.AuthCacheHits.Current⟩,
   ⟨"authCacheMisses", [name], nodeStats.Couchdb.AuthCacheMisses.Current⟩,
   ⟨"databaseReads", [name], nodeStats.Couchdb.DatabaseReads.Current⟩,
   ⟨"databaseWrites", [name], nodeStats.Couchdb.DatabaseWrites.Current⟩,
   ⟨"openDatabases", [name], nodeStats.Couchdb.OpenDatabases.Current⟩,
   ⟨"openOsFiles", [name], nodeStats.Couchdb.OpenOsFiles.Current⟩,
   ⟨"requestTime", [name], nodeStats.Couchdb.RequestTime.Current⟩] ++
  statusCodeWrites name nodeStats exposed ++
  [⟨"httpdRequestMethods", ["COPY", name], nodeStats.HttpdRequestMethods.COPY.Current⟩,
   ⟨"httpdRequestMethods", ["DELETE", name], nodeStats.HttpdRequestMethods.DELETE.Current⟩,
   ⟨"httpdRequestMethods", ["GET", name], nodeStats.HttpdRequestMethods.GET.Current⟩,
   ⟨"httpdRequestMethods", ["HEAD", name], nodeStats.HttpdRequestMethods.HEAD.Current⟩,
   ⟨"httpdRequestMethods", ["POST", name], nodeStats.HttpdRequestMethods.POST.Current⟩,
   ⟨"httpdRequestMethods", ["PUT", name], nodeStats.HttpdRequestMethods.PUT.Current⟩,
   ⟨"bulkRequests", [name], nodeStats.Httpd.BulkRequests.Current⟩,
   ⟨"clientsRequestingChanges", [name], nodeStats.Httpd.ClientsRequestingChanges.Current⟩,
   ⟨"requests", [name], nodeStats.Httpd.Requests.Current⟩,
   ⟨"temporaryViewReads", [name], nodeStats.Httpd.TemporaryViewReads.Current⟩,
   ⟨"viewReads", [name], nodeStats.Httpd.ViewReads.Current⟩]

/-- The `Set` calls of `collectDatabaseStats`. -/
def databaseStatsWrites (name : String) (dbStats : DatabaseStatsByDbName) (dbName : String) :
    List Metric :=
  [⟨"diskSize", [name, dbName], ((mapGet dbStats dbName).getD {}).DiskSize⟩,
   ⟨"dataSize", [name, dbName], ((mapGet dbStats dbName).getD {}).DataSize⟩,
   ⟨"diskSizeOverhead", [name, dbName], ((mapGet dbStats dbName).getD {}).DiskSizeOverhead⟩]

/-- The `Set` calls of `collectActiveTasks`. -/
def activeTasksWrites (nodeName : String) (tasks : ActiveTaskTypes) : List Metric :=
  [⟨"activeTasks", [nodeName], tasks.Sum⟩,
   ⟨"activeTasksDatabaseCompaction", [nodeName], tasks.DatabaseCompaction⟩,
   ⟨"activeTasksViewCompaction", [nodeName], tasks.ViewCompaction⟩,
   ⟨"activeTasksIndexer", [nodeName], tasks.Indexer⟩,
   ⟨"activeTasksReplication", [nodeName], tasks.Replication⟩]

/-- The `Set` calls of `collectV1`, in order. -/
def writesV1 (stats : Stats) (exposed databases : List String) : List Metric :=
  stats.StatsByNodeName.flatMap (fun entry => nodeStatsWrites exposed entry.1 entry.2) ++
  stats.DatabaseStatsByNodeName.flatMap
    (fun entry => databases.flatMap (databaseStatsWrites entry.1 entry.2)) ++
  (aggregateActiveTasks stats.ActiveTasksResponse).flatMap
    (fun entry => activeTasksWrites entry.1 entry.2)

/-- The gauges and leading label values a node gets on each poll when it reports every
exposed status code; the node name is the last label value. -/
def nodeKeyTemplates : List (String × List String) :=
  [("authCacheHits", []), ("authCacheMisses", []), ("databaseReads", []),
   ("databaseWrites", []), ("openDatabases", []), ("openOsFiles", []), ("requestTime", [])] ++
  exposedHttpStatusCodes.map (fun code => ("httpdStatusCodes", [code])) ++
  [("httpdRequestMethods", ["COPY"]), ("httpdRequestMethods", ["DELETE"]),
   ("httpdRequestMethods", ["GET"]), ("httpdRequestMethods", ["HEAD"]),
   ("httpdRequestMethods", ["POST"]), ("httpdRequestMethods", ["PUT"]),
   ("bulkRequests", []), ("clientsRequestingChanges", []), ("requests", []),
   ("temporaryViewReads", []), ("viewReads", [])]

/-! ## A test server

The documents are named after the fixture files of `couchdb-exporter_test.go`; the
decoders of `testLib` give the value each document decodes to. -/

/-- A transport that answers from a table of pages and refuses any other address. -/
def tableClient (pages : GoMap Response) (req : Request) : Except Error Response :=
  match mapGet pages req.uri with
  | some resp => .ok resp
  | none => .error "connection refused"

/-- A `200 OK` response with the given body. -/
def okPage (body : String) : Response := ⟨"200 OK", 200, body, none⟩

/-- The decoded stats document of the test server: every exposed status code is
reported. -/
def sampleNodeStats : StatsResponse :=
  { Couchdb := ⟨⟨1⟩, ⟨2⟩, ⟨3⟩, ⟨4⟩, ⟨5⟩, ⟨6⟩, ⟨7⟩⟩
    HttpdStatusCodes := exposedHttpStatusCodes.map (fun code => (code, ⟨10⟩))
    HttpdRequestMethods := ⟨⟨0⟩, ⟨1⟩, ⟨4711⟩, ⟨2⟩, ⟨3⟩, ⟨4⟩⟩
    Httpd := ⟨⟨8⟩, ⟨9⟩, ⟨10⟩, ⟨11⟩, ⟨12⟩⟩ }

/-- Library stubs for the test server. The database document reports a disk size of
10, a data size of 25 and an overhead of 7 of its own; `active-tasks-one.json` holds
one indexer task attributed to node `couchdb@localhost`. -/
def testLib : Lib where
  NewRequest method uri := .ok ⟨method, uri, none⟩
  UnmarshalRoot data :=
    if data = "couchdb-v1.json" then .ok ⟨"Welcome", "1.6.1"⟩
    else if data = "couchdb-v2.json" then .ok ⟨"Welcome", "2.1.0"⟩
    else .error "invalid character"
  UnmarshalMembership data :=
    if data = "couchdb-membership-response-empty.json" then .ok ⟨[], []⟩
    else if data = "couchdb-membership-response-v2.json" then .ok ⟨["a", "b"], ["a", "b"]⟩
    else .error "invalid character"
  UnmarshalStats data :=
    if data = "couchdb-stats-response.json" then .ok sampleNodeStats
    else .error "invalid character"
  UnmarshalDatabaseStats data :=
    if data = "couchdb-database.json" then .ok ⟨10, 25, 7⟩
    else .error "invalid character"
  UnmarshalActiveTasks data :=
    if data = "[]" then .ok []
    else if data = "active-tasks-one.json" then .ok [⟨"couchdb@localhost", "indexer"⟩]
    else .error "invalid character"
  NewConstraint text :=
    if text = ">= 2.0" then .ok (fun v => decide (2 ≤ v.headD 0))
    else .error "malformed constraint"
  NewVersion text :=
    if text = "1.6.1" then .ok [1, 6, 1]
    else if text = "2.1.0" then .ok [2, 1, 0]
    else .error "malformed version"

/-- A client of the test server at `http://couch` serving the given pages. -/
def testClient (databases : List String) (pages : GoMap Response) : CouchdbClient :=
  ⟨"http://couch", ⟨"", ""⟩, databases, tableClient pages⟩

/-- A single-generation server with the given active-tasks document. -/
def pagesV1 (activeTasks : String) : GoMap Response :=
  [("http://couch/", okPage "couchdb-v1.json"),
   ("http://couch/_stats", okPage "couchdb-stats-response.json"),
   ("http://couch/db1", okPage "couchdb-database.json"),
   ("http://couch/_active_tasks", okPage activeTasks)]

/-- A clustered server with the given membership document and no active tasks. -/
def pagesV2 (membership : String) : GoMap Response :=
  [("http://couch/", okPage "couchdb-v2.json"),
   ("http://couch/_membership", okPage membership),
   ("http://couch/_node/a/_stats", okPage "couchdb-stats-response.json"),
   ("http://couch/_node/b/_stats", okPage "couchdb-stats-response.json"),
   ("http://couch/db1", okPage "couchdb-database.json"),
   ("http://couch/_active_tasks", okPage "[]")]

/-- A stand-in for the absent `collectV2`: it writes nothing. -/
def noCollectV2 : CollectV2 := fun g _ _ _ => g

/-- A fresh exporter for the single-generation test server with no active task. -/
def freshExporter : Exporter := ⟨0, [], testClient [] (pagesV1 "[]"), []⟩

/-- The same exporter after an earlier poll, made while the server reported one
indexer task on node `couchdb@localhost`; the server reports no active task now. -/
def polledExporter : Exporter :=
  { (collect testLib noCollectV2
      ⟨0, [], testClient [] (pagesV1 "active-tasks-one.json"), []⟩).exporter with
    client := testClient [] (pagesV1 "[]") }

/-! ## Lemmas on maps -/

theorem mapGet_mapSet {α : Type} (m : GoMap α) (k k' : String) (v : α) :
    mapGet (mapSet m k v) k' = if k = k' then some v else mapGet m k' := by
  induction m with
  | nil => simp [mapSet, mapGet]
  | cons hd tl ih =>
    obtain ⟨a, b⟩ := hd
    by_cases h : a = k
    · subst h
      by_cases h' : a = k' <;> simp [mapSet, mapGet, h']
    · by_cases h' : k = k'
      · subst h'
        simp [mapSet, mapGet, h, ih]
      · by_cases h'' : a = k'
        · subst h''
          simp [mapSet, mapGet, h, h']
        · simp [mapSet, mapGet, h, h', h'', ih]

/-! ## Lemmas on the aggregation loop -/

theorem mapGet_aggregateStep (m : GoMap ActiveTaskTypes) (task : ActiveTask) (node : String) :
    mapGet (aggregateStep m task) node =
      if task.Node = node then some (countTask ((mapGet m node).getD {}) task.Type_)
      else mapGet m node := by
  unfold aggregateStep
  by_cases h : task.Node = node
  · subst h
    cases hm : mapGet m task.Node <;> simp [mapGet_mapSet, hm]
  · cases hm : mapGet m task.Node <;> simp [mapGet_mapSet, hm, h]

theorem mapGet_foldl_aggregateStep (tasks : ActiveTasksResponse) (m : GoMap ActiveTaskTypes)
    (node : String) :
    mapGet (tasks.foldl aggregateStep m) node =
      if nodeTaskTypes tasks node = [] then mapGet m node
      else some ((nodeTaskTypes tasks node).foldl countTask ((mapGet m node).getD {})) := by
  induction tasks generalizing m with
  | nil => simp [nodeTaskTypes]
  | cons t rest ih =>
    rw [List.foldl_cons, ih, mapGet_aggregateStep]
    by_cases h : t.Node = node
    · by_cases hr : nodeTaskTypes rest node = []
      · simp only [nodeTaskTypes, List.filter_cons, h, decide_True, if_true, List.map_cons] at hr ⊢
        simp [hr]
      · simp only [nodeTaskTypes, List.filter_cons, h, decide_True, if_true, List.map_cons] at hr ⊢
        simp [hr]
    · simp [nodeTaskTypes, List.filter_cons, h]

theorem countTask_foldl_sum (l : List String) (t : ActiveTaskTypes) :
    (l.foldl countTask t).Sum = t.Sum + l.length := by
  induction l generalizing t with
  | nil => simp
  | cons a rest ih =>
    rw [List.foldl_cons, ih]
    have : (countTask t a).Sum = t.Sum + 1 := by
      unfold countTask
      split_ifs <;> rfl
    rw [this]
    simp only [List.length_cons]
    push_cast
    ring

theorem countTask_foldl_named (l : List String) (t : ActiveTaskTypes) :
    (l.foldl countTask t).named = t.named + (l.filter (fun ty => ty ∈ knownTaskTypes)).length := by
  induction l generalizing t with
  | nil => simp
  | cons a rest ih =>
    rw [List.foldl_cons, ih]
    by_cases h : a ∈ knownTaskTypes
    · have : (countTask t a).named = t.named + 1 := by
        simp only [knownTaskTypes, List.mem_cons, List.mem_singleton, List.not_mem_nil,
          or_false] at h
        unfold countTask ActiveTaskTypes.named
        rcases h with h | h | h | h <;> subst h <;> simp <;> ring
      rw [this, List.filter_cons]
      simp only [h, decide_True, if_true, List.length_cons]
      push_cast
      ring
    · have : (countTask t a).named = t.named := by
        simp only [knownTaskTypes, List.mem_cons, List.mem_singleton, List.not_mem_nil,
          or_false, not_or] at h
        unfold countTask ActiveTaskTypes.named
        simp [h.1, h.2.1, h.2.2.1, h.2.2.2]
      rw [this, List.filter_cons]
      simp [h]

/-! ## The aggregation loop counts tasks per node -/

/-- C1: for every task sequence and node name, the node has a counter record exactly
when it appears in the sequence, and then its `Sum` is the number of tasks of the
sequence whose `Node` is that name, whatever their `Type`. -/
theorem aggregate_sum_eq_count (tasks : ActiveTasksResponse) (node : String) :
    (mapGet (aggregateActiveTasks tasks) node).map (fun c => c.Sum) =
      if node ∈ tasks.map (fun t => t.Node) then
        some ((tasks.filter (fun t => t.Node = node)).length : Int)
      else none := by
  unfold aggregateActiveTasks
  rw [mapGet_foldl_aggregateStep]
  have hmem : node ∈ tasks.map (fun t => t.Node) ↔ nodeTaskTypes tasks node ≠ [] := by
    simp only [nodeTaskTypes, ne_eq, List.map_eq_nil_iff, List.filter_eq_nil_iff, List.mem_map,
      decide_eq_true_eq, not_forall, not_not]
    constructor
    · rintro ⟨t, ht, rfl⟩
      exact ⟨t, ht, rfl⟩
    · rintro ⟨t, ht, h⟩
      exact ⟨t, ht, h⟩
  by_cases h : nodeTaskTypes tasks node = []
  · have hn : node ∉ tasks.map (fun t => t.Node) := fun hm => (hmem.1 hm) h
    simp [h, hn, mapGet]
  · have hn : node ∈ tasks.map (fun t => t.Node) := hmem.2 h
    rw [if_neg h, if_pos hn]
    simp [countTask_foldl_sum, mapGet, nodeTaskTypes]

/-- C2: for every task sequence and every node with a counter record, the four named
counters add up to at most `Sum`, with equality exactly when every task of that node
has one of the four named kinds. -/
theorem named_counters_le_sum (tasks : ActiveTasksResponse) (node : String)
    (c : ActiveTaskTypes) (h : mapGet (aggregateActiveTasks tasks) node = some c) :
    c.DatabaseCompaction + c.ViewCompaction + c.Indexer + c.Replication ≤ c.Sum ∧
    (c.DatabaseCompaction + c.ViewCompaction + c.Indexer + c.Replication = c.Sum ↔
      ∀ t ∈ tasks, t.Node = node → t.Type_ ∈ knownTaskTypes) := by
  unfold aggregateActiveTasks at h
  rw [mapGet_foldl_aggregateStep] at h
  by_cases hn : nodeTaskTypes tasks node = []
  · simp [hn, mapGet] at h
  · rw [if_neg hn] at h
    simp only [mapGet, Option.getD_none, Option.some.injEq] at h
    have hsum := countTask_foldl_sum (nodeTaskTypes tasks node) {}
    have hnamed := countTask_foldl_named (nodeTaskTypes tasks node) {}
    rw [h] at hsum hnamed
    have hnamed' : c.DatabaseCompaction + c.ViewCompaction + c.Indexer + c.Replication =
        ((nodeTaskTypes tasks node).filter (fun ty => ty ∈ knownTaskTypes)).length := by
      simpa [ActiveTaskTypes.named] using hnamed
    have hsum' : c.Sum = ((nodeTaskTypes tasks node).length : Int) := by simpa using hsum
    have hle := List.length_filter_le (fun ty => decide (ty ∈ knownTaskTypes))
      (nodeTaskTypes tasks node)
    rw [hnamed', hsum']
    refine ⟨by exact_mod_cast hle, ?_⟩
    rw [Nat.cast_inj, List.filter_length_eq_length]
    simp only [nodeTaskTypes, List.mem_map, List.mem_filter, decide_eq_true_eq,
      forall_exists_index, and_imp]
    constructor
    · intro hall t ht htn
      exact hall t.Type_ t ht htn rfl
    · rintro hall ty t ht htn rfl
      exact hall t ht htn

/-- Witness of C2: two tasks of `n1`, one of an unrecognized kind. -/
theorem named_counters_le_sum_witness :
    mapGet (aggregateActiveTasks [⟨"n1", "indexer"⟩, ⟨"n2", "replication"⟩, ⟨"n1", "other"⟩]) "n1"
        = some ⟨0, 0, 1, 0, 2⟩ ∧
    ((0 : Int) + 0 + 1 + 0 ≤ 2 ∧
      ((0 : Int) + 0 + 1 + 0 = 2 ↔
        ∀ t ∈ ([⟨"n1", "indexer"⟩, ⟨"n2", "replication"⟩, ⟨"n1", "other"⟩] : List ActiveTask),
          t.Node = "n1" → t.Type_ ∈ knownTaskTypes)) :=
  ⟨by decide,
   named_counters_le_sum [⟨"n1", "indexer"⟩, ⟨"n2", "replication"⟩, ⟨"n1", "other"⟩] "n1"
     ⟨0, 0, 1, 0, 2⟩ (by decide)⟩

/-! ## The HTTP fetcher -/

/-- C4: once the transport call has succeeded, `request` returns an error exactly when
the status code is below 200 or at least 400; for a code inside the range it returns
the body bytes and no error. -/
theorem request_error_iff (lib : Lib) (c : CouchdbClient) (method uri : String)
    (req : Request) (resp : Response)
    (hreq : lib.NewRequest method uri = .ok req)
    (hdo : c.client (withBasicAuth c req) = .ok resp) :
    ((∃ err, request lib c method uri = .error err) ↔
      (resp.StatusCode < 200 ∨ resp.StatusCode ≥ 400)) ∧
    (200 ≤ resp.StatusCode ∧ resp.StatusCode < 400 →
      request lib c method uri = .ok resp.Body) := by
  unfold request
  simp only [hreq, hdo]
  by_cases h : resp.StatusCode < 200 ∨ resp.StatusCode ≥ 400
  · rw [if_pos h]
    refine ⟨⟨fun _ => h, fun _ => ⟨_, rfl⟩⟩, ?_⟩
    rintro ⟨h1, h2⟩
    rcases h with h | h <;> omega
  · rw [if_neg h]
    refine ⟨⟨?_, fun h' => absurd h' h⟩, fun _ => rfl⟩
    rintro ⟨err, herr⟩
    cases herr

/-- Witness of C4: a `301` answer is handed back as the body. -/
theorem request_error_iff_witness :
    ((∃ err, request testLib (testClient [] [("http://couch/x", ⟨"301 Moved", 301, "moved", none⟩)])
        "GET" "http://couch/x" = .error err) ↔ ((301 : Int) < 200 ∨ (301 : Int) ≥ 400)) ∧
    (200 ≤ (301 : Int) ∧ (301 : Int) < 400 →
      request testLib (testClient [] [("http://couch/x", ⟨"301 Moved", 301, "moved", none⟩)])
        "GET" "http://couch/x" = .ok "moved") :=
  request_error_iff testLib (testClient [] [("http://couch/x", ⟨"301 Moved", 301, "moved", none⟩)])
    "GET" "http://couch/x" ⟨"GET", "http://couch/x", none⟩ ⟨"301 Moved", 301, "moved", none⟩
    rfl rfl

/-! ## Database stats -/

theorem mapGet_foldl_mapSet_const {α β : Type} (l : List (String × β)) (acc : GoMap α) (v : α)
    (k : String) :
    mapGet (l.foldl (fun m entry => mapSet m entry.1 v) acc) k =
      if k ∈ l.map Prod.fst then some v else mapGet acc k := by
  induction l generalizing acc with
  | nil => simp
  | cons hd tl ih =>
    rw [List.foldl_cons, ih, mapGet_mapSet]
    by_cases h : k ∈ tl.map Prod.fst
    · simp [h]
    · by_cases h' : hd.1 = k
      · simp [h']
      · have h'' : ¬ k = hd.1 := fun e => h' e.symm
        simp only [List.mem_map] at h
        simp [h, h', h'']

theorem getDatabasesStatsLoop_stored (lib : Lib) (c : CouchdbClient) (dbs : List String)
    (acc res : DatabaseStatsByDbName)
    (hres : getDatabasesStatsLoop lib c dbs acc = .ok res) (dbName : String) (s : DatabaseStats)
    (hs : mapGet res dbName = some s) :
    mapGet acc dbName = some s ∨
      ∃ data decoded, request lib c "GET" (c.baseUri ++ "/" ++ dbName) = .ok data ∧
        lib.UnmarshalDatabaseStats data = .ok decoded ∧
        s = ⟨decoded.DiskSize, decoded.DataSize, decoded.DiskSize - decoded.DataSize⟩ := by
  induction dbs generalizing acc with
  | nil =>
    simp only [getDatabasesStatsLoop, Except.ok.injEq] at hres
    subst hres
    exact Or.inl hs
  | cons db rest ih =>
    unfold getDatabasesStatsLoop at hres
    cases hreq : request lib c "GET" (c.baseUri ++ "/" ++ db) with
    | error e => simp [hreq] at hres
    | ok data =>
      cases hdec : lib.UnmarshalDatabaseStats data with
      | error e => simp [hreq, hdec] at hres
      | ok decoded =>
        simp only [hreq, hdec] at hres
        rcases ih _ hres with h | h
        · rw [mapGet_mapSet] at h
          by_cases hk : db = dbName
          · subst hk
            simp only [if_true, Option.some.injEq] at h
            exact Or.inr ⟨data, decoded, hreq, hdec, h.symm⟩
          · rw [if_neg hk] at h
            exact Or.inl h
        · exact Or.inr h

theorem getDatabasesStatsLoop_keys (lib : Lib) (c : CouchdbClient) (dbs : List String)
    (acc res : DatabaseStatsByDbName)
    (hres : getDatabasesStatsLoop lib c dbs acc = .ok res) (dbName : String)
    (h : dbName ∈ dbs ∨ mapGet acc dbName ≠ none) : mapGet res dbName ≠ none := by
  induction dbs generalizing acc with
  | nil =>
    simp only [getDatabasesStatsLoop, Except.ok.injEq] at hres
    subst hres
    simpa using h
  | cons db rest ih =>
    unfold getDatabasesStatsLoop at hres
    cases hreq : request lib c "GET" (c.baseUri ++ "/" ++ db) with
    | error e => simp [hreq] at hres
    | ok data =>
      cases hdec : lib.UnmarshalDatabaseStats data with
      | error e => simp [hreq, hdec] at hres
      | ok decoded =>
        simp only [hreq, hdec] at hres
        apply ih _ hres
        rw [mapGet_mapSet]
        by_cases hk : db = dbName
        · right
          simp [hk]
        · rcases h with h | h
          · rcases List.mem_cons.1 h with h | h
            · exact absurd h.symm hk
            · exact Or.inl h
          · right
            simpa [hk] using h

theorem getDatabasesStatsLoop_error (lib : Lib) (c : CouchdbClient) (dbs : List String)
    (acc : DatabaseStatsByDbName) (dbName : String) (hmem : dbName ∈ dbs)
    (hfail : ¬ ∃ data decoded, request lib c "GET" (c.baseUri ++ "/" ++ dbName) = .ok data ∧
      lib.UnmarshalDatabaseStats data = .ok decoded) :
    ∃ err, getDatabasesStatsLoop lib c dbs acc = .error err := by
  induction dbs generalizing acc with
  | nil => simp at hmem
  | cons db rest ih =>
    unfold getDatabasesStatsLoop
    cases hreq : request lib c "GET" (c.baseUri ++ "/" ++ db) with
    | error e =>
      simp only [hreq]
      exact ⟨_, rfl⟩
    | ok data =>
      cases hdec : lib.UnmarshalDatabaseStats data with
      | error e =>
        simp only [hreq, hdec]
        exact ⟨_, rfl⟩
      | ok decoded =>
        rcases List.mem_cons.1 hmem with h | h
        · subst h
          exact absurd ⟨data, decoded, hreq, hdec⟩ hfail
        · simp only [hreq, hdec]
          exact ih _ h

theorem getDatabasesStatsByNodeNameLoop_eq (lib : Lib) (c : CouchdbClient)
    (uris : List (String × String)) (acc : GoMap DatabaseStatsByDbName) :
    getDatabasesStatsByNodeNameLoop lib c uris acc =
      if uris = [] then .ok acc
      else
        match getDatabasesStatsLoop lib c c.databases [] with
        | .error err => .error err
        | .ok byDbName => .ok (uris.foldl (fun m entry => mapSet m entry.1 byDbName) acc) := by
  induction uris generalizing acc with
  | nil => simp [getDatabasesStatsByNodeNameLoop]
  | cons hd tl ih =>
    obtain ⟨name, uri⟩ := hd
    unfold getDatabasesStatsByNodeNameLoop
    cases hin : getDatabasesStatsLoop lib c c.databases [] with
    | error e => simp
    | ok byDbName =>
      simp only [List.cons_ne_nil, if_false, List.foldl_cons]
      rw [ih]
      by_cases ht : tl = []
      · simp [ht]
      · simp [ht, hin]

/-- C5: every entry stored by a successful `getDatabasesStatsByNodeName` is the decoded
response of that database with `DiskSizeOverhead` replaced by `DiskSize - DataSize`:
the difference is kept as it is, negative or not, and whatever overhead the response
itself carried is gone. -/
theorem databaseStats_overhead (lib : Lib) (c : CouchdbClient) (urisByNodeName : GoMap String)
    (result : GoMap DatabaseStatsByDbName) (node dbName : String)
    (byDbName : DatabaseStatsByDbName) (s : DatabaseStats)
    (hres : getDatabasesStatsByNodeName lib c urisByNodeName = .ok result)
    (hnode : mapGet result node = some byDbName)
    (hdb : mapGet byDbName dbName = some s) :
    s.DiskSizeOverhead = s.DiskSize - s.DataSize ∧
    ∃ data decoded, request lib c "GET" (c.baseUri ++ "/" ++ dbName) = .ok data ∧
      lib.UnmarshalDatabaseStats data = .ok decoded ∧
      s.DiskSize = decoded.DiskSize ∧ s.DataSize = decoded.DataSize ∧
      s.DiskSizeOverhead = decoded.DiskSize - decoded.DataSize := by
  unfold getDatabasesStatsByNodeName at hres
  rw [getDatabasesStatsByNodeNameLoop_eq] at hres
  by_cases hu : urisByNodeName = []
  · rw [if_pos hu] at hres
    cases hres
    simp [mapGet] at hnode
  · rw [if_neg hu] at hres
    cases hin : getDatabasesStatsLoop lib c c.databases [] with
    | error e => simp [hin] at hres
    | ok inner =>
      simp only [hin, Except.ok.injEq] at hres
      subst hres
      rw [mapGet_foldl_mapSet_const] at hnode
      split_ifs at hnode
      · cases hnode
        rcases getDatabasesStatsLoop_stored lib c _ _ _ hin dbName s hdb with h | h
        · simp [mapGet] at h
        · obtain ⟨data, decoded, h1, h2, rfl⟩ := h
          exact ⟨rfl, data, decoded, h1, h2, rfl, rfl, rfl⟩
      · simp [mapGet] at hnode

/-- Witness of C5: the test database reports disk size 10, data size 25 and an
overhead of 7; the stored overhead is -15. -/
theorem databaseStats_overhead_witness :
    getDatabasesStatsByNodeName testLib (testClient ["db1"] (pagesV1 "[]"))
        [("master", "http://couch")] = .ok [("master", [("db1", ⟨10, 25, -15⟩)])] ∧
    ((-15 : Int) = 10 - 25 ∧
      ∃ data decoded, request testLib (testClient ["db1"] (pagesV1 "[]")) "GET"
          ((testClient ["db1"] (pagesV1 "[]")).baseUri ++ "/" ++ "db1") = .ok data ∧
        testLib.UnmarshalDatabaseStats data = .ok decoded ∧
        (10 : Int) = decoded.DiskSize ∧ (25 : Int) = decoded.DataSize ∧
        (-15 : Int) = decoded.DiskSize - decoded.DataSize) :=
  ⟨rfl,
   databaseStats_overhead testLib (testClient ["db1"] (pagesV1 "[]")) [("master", "http://couch")]
     [("master", [("db1", ⟨10, 25, -15⟩)])] "master" "db1" [("db1", ⟨10, 25, -15⟩)] ⟨10, 25, -15⟩
     rfl (by decide) (by decide)⟩

/-- C10: when `getDatabasesStatsByNodeName` returns a map, every node of the topology
map has an entry holding every configured database; and when the fetch or the decode
of a configured database fails while the topology has a node, the result is an error
and no map. -/
theorem databaseStats_complete (lib : Lib) (c : CouchdbClient) (urisByNodeName : GoMap String) :
    (∀ result, getDatabasesStatsByNodeName lib c urisByNodeName = .ok result →
      ∀ node ∈ mapKeys urisByNodeName, ∀ dbName ∈ c.databases,
        ∃ byDbName s, mapGet result node = some byDbName ∧ mapGet byDbName dbName = some s) ∧
    (urisByNodeName ≠ [] →
      (∃ dbName ∈ c.databases,
        ¬ ∃ data decoded, request lib c "GET" (c.baseUri ++ "/" ++ dbName) = .ok data ∧
          lib.UnmarshalDatabaseStats data = .ok decoded) →
      ∃ err, getDatabasesStatsByNodeName lib c urisByNodeName = .error err) := by
  unfold getDatabasesStatsByNodeName
  rw [getDatabasesStatsByNodeNameLoop_eq]
  constructor
  · intro result hres node hnode dbName hdb
    by_cases hu : urisByNodeName = []
    · subst hu
      simp [mapKeys] at hnode
    · rw [if_neg hu] at hres
      cases hin : getDatabasesStatsLoop lib c c.databases [] with
      | error e => simp [hin] at hres
      | ok inner =>
        simp only [hin, Except.ok.injEq] at hres
        subst hres
        have hk := getDatabasesStatsLoop_keys lib c _ _ _ hin dbName (Or.inl hdb)
        obtain ⟨s, hs⟩ := Option.ne_none_iff_exists'.1 hk
        refine ⟨inner, s, ?_, hs⟩
        unfold mapKeys at hnode
        rw [mapGet_foldl_mapSet_const, if_pos hnode]
  · rintro hu ⟨dbName, hmem, hfail⟩
    rw [if_neg hu]
    obtain ⟨err, herr⟩ := getDatabasesStatsLoop_error lib c c.databases [] dbName hmem hfail
    exact ⟨err, by simp [herr]⟩

/-- Witness of C10: the single-generation test server with `db1` configured gives a
complete map; with the unserved database `db2` configured it gives an error. -/
theorem databaseStats_complete_witness :
    (∀ node ∈ mapKeys [("master", "http://couch")], ∀ dbName ∈ ["db1"],
      ∃ byDbName s, mapGet [("master", [("db1", (⟨10, 25, -15⟩ : DatabaseStats))])] node
        = some byDbName ∧ mapGet byDbName dbName = some s) ∧
    (∃ err, getDatabasesStatsByNodeName testLib (testClient ["db1", "db2"] (pagesV1 "[]"))
      [("master", "http://couch")] = .error err) :=
  ⟨(databaseStats_complete testLib (testClient ["db1"] (pagesV1 "[]"))
      [("master", "http://couch")]).1 _ rfl,
   (databaseStats_complete testLib (testClient ["db1", "db2"] (pagesV1 "[]"))
      [("master", "http://couch")]).2 (by decide)
      ⟨"db2", by decide, by
        rintro ⟨data, decoded, h, -⟩
        have hrefused : request testLib (testClient ["db1", "db2"] (pagesV1 "[]")) "GET"
            ((testClient ["db1", "db2"] (pagesV1 "[]")).baseUri ++ "/" ++ "db2") =
            .error "connection refused" := rfl
        rw [hrefused] at h
        cases h⟩⟩

/-! ## Active tasks of the client -/

theorem normalizeNodeLoop_eq (visit : List ActiveTask) (activeTasks : ActiveTasksResponse) :
    normalizeNodeLoop visit activeTasks = activeTasks := by
  induction visit with
  | nil => rfl
  | cons t rest ih => simpa [normalizeNodeLoop] using ih

/-- C9: on the single-generation test server whose active-tasks document holds one
task attributed to node `couchdb@localhost`, `getActiveTasks` returns that task with
its `Node` still `couchdb@localhost`, not `master`: the loop assigns to its loop
variable, a copy of the slice element, and so on every server the decoded sequence
is returned as it was decoded. -/
theorem getActiveTasks_keeps_node :
    getActiveTasks testLib (testClient [] (pagesV1 "active-tasks-one.json")) =
      .ok [⟨"couchdb@localhost", "indexer"⟩] ∧
    ∀ (lib : Lib) (c : CouchdbClient) (data : String) (tasks : ActiveTasksResponse),
      request lib c "GET" (c.baseUri ++ "/_active_tasks") = .ok data →
      lib.UnmarshalActiveTasks data = .ok tasks →
      getActiveTasks lib c = .ok tasks := by
  refine ⟨rfl, ?_⟩
  intro lib c data tasks hreq hdec
  simp only [getActiveTasks, hreq, hdec, normalizeNodeLoop_eq]

/-! ## Liveness -/

theorem name_of_mem_collected (g : Gauges) (names : List String) (m : Metric)
    (h : m ∈ (names.map (collectVec g)).flatten) : m.name ∈ names ∧ m ∈ g := by
  simp only [List.mem_flatten, List.mem_map, collectVec] at h
  obtain ⟨l, ⟨n, hn, rfl⟩, hm⟩ := h
  simp only [List.mem_filter, decide_eq_true_eq] at hm
  exact ⟨hm.2 ▸ hn, hm.1⟩

theorem mem_collected (g : Gauges) (names : List String) (m : Metric)
    (hn : m.name ∈ names) (hm : m ∈ g) : m ∈ (names.map (collectVec g)).flatten := by
  simp only [List.mem_flatten, List.mem_map, collectVec]
  exact ⟨_, ⟨m.name, hn, rfl⟩, by simp [hm]⟩

theorem filter_up_collected (g : Gauges) :
    ((gaugeVecNames.map (collectVec g)).flatten).filter (fun m => m.name = "up") = [] := by
  rw [List.filter_eq_nil_iff]
  intro m hm hup
  have hname := (name_of_mem_collected g gaugeVecNames m hm).1
  simp only [decide_eq_true_eq] at hup
  rw [hup] at hname
  revert hname
  decide

theorem collect_of_error (lib : Lib) (collectV2 : CollectV2) (e : Exporter) (err : Error)
    (h : getStats lib e.client = .error err) :
    collect lib collectV2 e =
      ⟨{ e with up := 0 }, [⟨"up", [], 0⟩], some ("Error reading couchdb stats: " ++ err)⟩ := by
  simp [collect, h, upMetric]

theorem collect_of_ok (lib : Lib) (collectV2 : CollectV2) (e : Exporter) (stats : Stats)
    (h : getStats lib e.client = .ok stats) :
    collect lib collectV2 e =
      ⟨{ e with
          up := 1
          gauges :=
            if stats.ApiVersion = "2" then
              collectV2 e.gauges stats exposedHttpStatusCodes e.databases
            else collectV1 e.gauges stats exposedHttpStatusCodes e.databases },
        (gaugeVecNames.map (collectVec
          (if stats.ApiVersion = "2" then
            collectV2 e.gauges stats exposedHttpStatusCodes e.databases
          else collectV1 e.gauges stats exposedHttpStatusCodes e.databases))).flatten ++
          [⟨"up", [], 1⟩],
        none⟩ := by
  simp [collect, h, upMetric]

theorem getStats_ok_iff (lib : Lib) (c : CouchdbClient) :
    (∃ stats, getStats lib c = .ok stats) ↔
      ∃ isV2 urisByNode nodeStats databaseStats activeTasks,
        isCouchDbV2 lib c = .ok isV2 ∧
        (if isV2 then getNodeBaseUrisByNodeName lib c c.baseUri
          else .ok [("master", c.baseUri)]) = .ok urisByNode ∧
        getStatsByNodeName lib c urisByNode = .ok nodeStats ∧
        getDatabasesStatsByNodeName lib c urisByNode = .ok databaseStats ∧
        getActiveTasks lib c = .ok activeTasks := by
  unfold getStats
  cases hv : isCouchDbV2 lib c with
  | error e => simp
  | ok isV2 =>
    cases isV2 with
    | true =>
      cases hu : getNodeBaseUrisByNodeName lib c c.baseUri with
      | error e => simp
      | ok uris =>
        cases hn : getStatsByNodeName lib c uris with
        | error e => simp [hn]
        | ok ns =>
          cases hd : getDatabasesStatsByNodeName lib c uris with
          | error e => simp [hn, hd]
          | ok ds =>
            cases ha : getActiveTasks lib c with
            | error e => simp [hn, hd]
            | ok tasks => simp [hn, hd]
    | false =>
      cases hn : getStatsByNodeName lib c [("master", c.baseUri)] with
      | error e => simp [hn]
      | ok ns =>
        cases hd : getDatabasesStatsByNodeName lib c [("master", c.baseUri)] with
        | error e => simp [hn, hd]
        | ok ds =>
          cases ha : getActiveTasks lib c with
          | error e => simp [hn, hd]
          | ok tasks => simp [hn, hd]

/-- C3: every `collect` sends the liveness gauge `up` exactly once; the value sent is
1 exactly when `getStats` succeeded, which is when version detection, topology
resolution, node stats, database stats and active tasks all succeeded; otherwise the
value sent is 0 and `collect` returns an error. -/
theorem collect_sends_up_once (lib : Lib) (collectV2 : CollectV2) (e : Exporter) :
    ((collect lib collectV2 e).sent.filter (fun m => m.name = "up")).length = 1 ∧
    (∀ m ∈ (collect lib collectV2 e).sent, m.name = "up" →
      (m.value = 1 ↔ ∃ stats, getStats lib e.client = .ok stats) ∧
      ((¬ ∃ stats, getStats lib e.client = .ok stats) →
        m.value = 0 ∧ (collect lib collectV2 e).err ≠ none)) ∧
    ((∃ stats, getStats lib e.client = .ok stats) ↔
      ∃ isV2 urisByNode nodeStats databaseStats activeTasks,
        isCouchDbV2 lib e.client = .ok isV2 ∧
        (if isV2 then getNodeBaseUrisByNodeName lib e.client e.client.baseUri
          else .ok [("master", e.client.baseUri)]) = .ok urisByNode ∧
        getStatsByNodeName lib e.client urisByNode = .ok nodeStats ∧
        getDatabasesStatsByNodeName lib e.client urisByNode = .ok databaseStats ∧
        getActiveTasks lib e.client = .ok activeTasks) := by
  refine ⟨?_, ?_, getStats_ok_iff lib e.client⟩
  · cases hs : getStats lib e.client with
    | error err =>
      rw [collect_of_error lib collectV2 e err hs]
      simp
    | ok stats =>
      rw [collect_of_ok lib collectV2 e stats hs]
      simp only [List.filter_append, filter_up_collected]
      simp
  · intro m hm hup
    cases hs : getStats lib e.client with
    | error err =>
      rw [collect_of_error lib collectV2 e err hs] at hm ⊢
      simp only [List.mem_singleton] at hm
      subst hm
      simp
    | ok stats =>
      rw [collect_of_ok lib collectV2 e stats hs] at hm
      simp only [List.mem_append, List.mem_singleton] at hm
      rcases hm with hm | hm
      · have hname := (name_of_mem_collected _ gaugeVecNames m hm).1
        rw [hup] at hname
        exact absurd hname (by decide)
      · subst hm
        simp

/-! ## An empty cluster -/

/-- C6, as the code has it: for a clustered target whose membership response decodes to
an empty `cluster_nodes`, topology resolution succeeds with an empty map and the poll
goes on to the active tasks. If that fetch succeeds, `getStats` returns a `Stats` with
empty node maps and API version 2, `up` is sent as 1 and `collect` returns no error;
if it fails, `getStats` returns the error, `up` is sent as 0 and `collect` returns an
error. -/
theorem empty_cluster_poll (lib : Lib) (collectV2 : CollectV2) (e : Exporter)
    (hv2 : isCouchDbV2 lib e.client = .ok true)
    (hnames : getNodeNames lib e.client = .ok []) :
    getNodeBaseUrisByNodeName lib e.client e.client.baseUri = .ok [] ∧
    (∀ tasks, getActiveTasks lib e.client = .ok tasks →
      getStats lib e.client = .ok ⟨[], [], tasks, "2"⟩ ∧
      (⟨"up", [], 1⟩ : Metric) ∈ (collect lib collectV2 e).sent ∧
      (collect lib collectV2 e).err = none) ∧
    (∀ err, getActiveTasks lib e.client = .error err →
      getStats lib e.client = .error err ∧
      (collect lib collectV2 e).sent = [⟨"up", [], 0⟩] ∧
      (collect lib collectV2 e).err ≠ none) := by
  have htopo : getNodeBaseUrisByNodeName lib e.client e.client.baseUri = .ok [] := by
    simp [getNodeBaseUrisByNodeName, hnames]
  have hstats : ∀ tasks, getActiveTasks lib e.client = .ok tasks →
      getStats lib e.client = .ok ⟨[], [], tasks, "2"⟩ := by
    intro tasks ht
    simp [getStats, hv2, htopo, getStatsByNodeName, getStatsByNodeNameLoop,
      getDatabasesStatsByNodeName, getDatabasesStatsByNodeNameLoop, ht]
  have hfail : ∀ err, getActiveTasks lib e.client = .error err →
      getStats lib e.client = .error err := by
    intro err ht
    simp [getStats, hv2, htopo, getStatsByNodeName, getStatsByNodeNameLoop,
      getDatabasesStatsByNodeName, getDatabasesStatsByNodeNameLoop, ht]
  refine ⟨htopo, ?_, ?_⟩
  · intro tasks ht
    rw [collect_of_ok lib collectV2 e _ (hstats tasks ht)]
    exact ⟨hstats tasks ht, by simp, rfl⟩
  · intro err ht
    rw [collect_of_error lib collectV2 e _ (hfail err ht)]
    exact ⟨hfail err ht, rfl, by simp⟩

/-- Witness of C6 as the code has it: the clustered test server with an empty
membership list. -/
theorem empty_cluster_poll_witness :
    getStats testLib (testClient [] (pagesV2 "couchdb-membership-response-empty.json")) =
      .ok ⟨[], [], [], "2"⟩ :=
  ((empty_cluster_poll testLib noCollectV2
    ⟨0, [], testClient [] (pagesV2 "couchdb-membership-response-empty.json"), []⟩
    rfl rfl).2.1 [] rfl).1

/-- C6 fails as stated: the clustered test server answers the membership request with
an empty `cluster_nodes`, and still `getStats` returns a `Stats` value with empty node
maps, `collect` sends `up` as 1 and returns no error. -/
theorem empty_cluster_not_fatal :
    isCouchDbV2 testLib (testClient [] (pagesV2 "couchdb-membership-response-empty.json")) =
      .ok true ∧
    getNodeNames testLib (testClient [] (pagesV2 "couchdb-membership-response-empty.json")) =
      .ok [] ∧
    getStats testLib (testClient [] (pagesV2 "couchdb-membership-response-empty.json")) =
      .ok ⟨[], [], [], "2"⟩ ∧
    (collect testLib noCollectV2
      ⟨0, [], testClient [] (pagesV2 "couchdb-membership-response-empty.json"), []⟩).sent =
      [⟨"up", [], 1⟩] ∧
    (collect testLib noCollectV2
      ⟨0, [], testClient [] (pagesV2 "couchdb-membership-response-empty.json"), []⟩).err =
      none :=
  ⟨rfl, rfl, rfl, rfl, rfl⟩

/-! ## `collectV1` as a sequence of writes -/

theorem applyWrites_append (g : Gauges) (a b : List Metric) :
    applyWrites g (a ++ b) = applyWrites (applyWrites g a) b := by
  simp [applyWrites, List.foldl_append]

theorem foldl_applyWrites {α : Type} (l : List α) (f : α → List Metric) (g : Gauges) :
    l.foldl (fun g x => applyWrites g (f x)) g = applyWrites g (l.flatMap f) := by
  induction l generalizing g with
  | nil => simp [applyWrites]
  | cons hd tl ih => rw [List.foldl_cons, ih, List.flatMap_cons, applyWrites_append]

theorem collectStatusCodes_eq (name : String) (nodeStats : StatsResponse) (codes : List String)
    (g : Gauges) :
    collectStatusCodes name nodeStats codes g =
      applyWrites g (statusCodeWrites name nodeStats codes) := by
  induction codes generalizing g with
  | nil => simp [collectStatusCodes, statusCodeWrites, applyWrites]
  | cons code rest ih =>
    unfold collectStatusCodes
    cases h : mapGet nodeStats.HttpdStatusCodes code with
    | none =>
      simp only [h]
      rw [ih]
      simp [statusCodeWrites, h]
    | some counter =>
      simp only [h]
      rw [ih]
      simp [statusCodeWrites, h, applyWrites]

theorem collectNodeStats_eq (exposed : List String) (g : Gauges) (name : String)
    (nodeStats : StatsResponse) :
    collectNodeStats exposed g name nodeStats =
      applyWrites g (nodeStatsWrites exposed name nodeStats) := by
  unfold collectNodeStats nodeStatsWrites
  simp only [applyWrites_append, collectStatusCodes_eq]
  simp [applyWrites]

theorem collectDatabaseStats_eq (name : String) (dbStats : DatabaseStatsByDbName) (g : Gauges)
    (dbName : String) :
    collectDatabaseStats name dbStats g dbName =
      applyWrites g (databaseStatsWrites name dbStats dbName) := by
  simp [collectDatabaseStats, databaseStatsWrites, applyWrites]

theorem foldl_collectDatabaseStats (name : String) (dbStats : DatabaseStatsByDbName)
    (g : Gauges) (databases : List String) :
    databases.foldl (collectDatabaseStats name dbStats) g =
      applyWrites g (databases.flatMap (databaseStatsWrites name dbStats)) := by
  have h : collectDatabaseStats name dbStats =
      fun g dbName => applyWrites g (databaseStatsWrites name dbStats dbName) := by
    funext g dbName
    exact collectDatabaseStats_eq name dbStats g dbName
  rw [h, foldl_applyWrites]

theorem collectActiveTasks_eq (g : Gauges) (nodeName : String) (tasks : ActiveTaskTypes) :
    collectActiveTasks g nodeName tasks = applyWrites g (activeTasksWrites nodeName tasks) := by
  simp [collectActiveTasks, activeTasksWrites, applyWrites]

theorem collectV1_eq (g : Gauges) (stats : Stats) (exposed databases : List String) :
    collectV1 g stats exposed databases = applyWrites g (writesV1 stats exposed databases) := by
  unfold collectV1 writesV1
  simp only [collectNodeStats_eq, foldl_collectDatabaseStats, collectActiveTasks_eq,
    foldl_applyWrites, applyWrites_append]

/-! ## Gauge vectors as maps -/

theorem gaugeGet_setGauge (g : Gauges) (n : String) (l : List String) (v : Float64)
    (n' : String) (l' : List String) :
    gaugeGet (setGauge g n l v) n' l' =
      if n = n' ∧ l = l' then some v else gaugeGet g n' l' := by
  induction g with
  | nil => simp [setGauge, gaugeGet]
  | cons m rest ih =>
    by_cases h : m.name = n ∧ m.labels = l
    · obtain ⟨h1, h2⟩ := h
      subst h1 h2
      by_cases h' : m.name = n' ∧ m.labels = l' <;> simp [setGauge, gaugeGet, h']
    · by_cases h' : n = n' ∧ l = l'
      · obtain ⟨h1, h2⟩ := h'
        subst h1 h2
        simp [setGauge, gaugeGet, h, ih]
      · by_cases h'' : m.name = n' ∧ m.labels = l'
        · have hsym : ¬ (n' = n ∧ l' = l) := fun e => h' ⟨e.1.symm, e.2.symm⟩
          simp [setGauge, gaugeGet, h', h'', hsym]
        · simp [setGauge, gaugeGet, h, h', h'', ih]

theorem keys_setGauge (g : Gauges) (n : String) (l : List String) (v : Float64) :
    (setGauge g n l v).map Metric.key =
      if (n, l) ∈ g.map Metric.key then g.map Metric.key else g.map Metric.key ++ [(n, l)] := by
  induction g with
  | nil => simp [setGauge, Metric.key]
  | cons m rest ih =>
    by_cases h : m.name = n ∧ m.labels = l
    · obtain ⟨h1, h2⟩ := h
      subst h1 h2
      simp [setGauge, Metric.key]
    · have hk : ¬ (n, l) = m.key := by
        intro e
        simp only [Metric.key, Prod.mk.injEq] at e
        exact h ⟨e.1.symm, e.2.symm⟩
      simp only [setGauge, h, if_false, List.map_cons, ih, List.mem_cons, hk, false_or]
      split_ifs <;> simp

theorem gaugeGet_eq_none_iff (g : Gauges) (n : String) (l : List String) :
    gaugeGet g n l = none ↔ (n, l) ∉ g.map Metric.key := by
  induction g with
  | nil => simp [gaugeGet]
  | cons m rest ih =>
    by_cases h : m.name = n ∧ m.labels = l
    · simp [gaugeGet, h, Metric.key]
    · have hk : ¬ (n, l) = m.key := by
        intro e
        simp only [Metric.key, Prod.mk.injEq] at e
        exact h ⟨e.1.symm, e.2.symm⟩
      simp only [gaugeGet, h, if_false, ih, List.map_cons, List.mem_cons, hk, false_or]

theorem mem_iff_gaugeGet (g : Gauges) (hg : (g.map Metric.key).Nodup) (m : Metric) :
    m ∈ g ↔ gaugeGet g m.name m.labels = some m.value := by
  induction g with
  | nil => simp [gaugeGet]
  | cons hd rest ih =>
    rw [List.map_cons, List.nodup_cons] at hg
    by_cases h : hd.name = m.name ∧ hd.labels = m.labels
    · simp only [gaugeGet, h, and_self, if_true, Option.some.injEq, List.mem_cons]
      constructor
      · rintro (rfl | hm)
        · rfl
        · exfalso
          apply hg.1
          have : hd.key = m.key := by simp [Metric.key, h.1, h.2]
          rw [this]
          exact List.mem_map_of_mem Metric.key hm
      · intro hv
        left
        cases m
        cases hd
        simp_all
    · have hne : m ≠ hd := by
        rintro rfl
        exact h ⟨rfl, rfl⟩
      simp only [gaugeGet, h, if_false, List.mem_cons, hne, false_or]
      exact ih hg.2

theorem nodup_setGauge (g : Gauges) (n : String) (l : List String) (v : Float64)
    (hg : (g.map Metric.key).Nodup) : ((setGauge g n l v).map Metric.key).Nodup := by
  rw [keys_setGauge]
  split_ifs with h
  · exact hg
  · rw [List.nodup_append]
    refine ⟨hg, List.nodup_singleton _, ?_⟩
    intro k hk hk'
    rw [List.mem_singleton] at hk'
    exact h (hk' ▸ hk)

theorem nodup_applyWrites (ws : List Metric) (g : Gauges) (hg : (g.map Metric.key).Nodup) :
    ((applyWrites g ws).map Metric.key).Nodup := by
  induction ws generalizing g with
  | nil => simpa [applyWrites] using hg
  | cons w rest ih =>
    simp only [applyWrites, List.foldl_cons]
    exact ih _ (nodup_setGauge g _ _ _ hg)

theorem keys_applyWrites (ws : List Metric) (g : Gauges)
    (hws : (ws.map Metric.key).Nodup)
    (hdisj : ∀ k ∈ ws.map Metric.key, k ∉ g.map Metric.key) :
    (applyWrites g ws).map Metric.key = g.map Metric.key ++ ws.map Metric.key := by
  induction ws generalizing g with
  | nil => simp [applyWrites]
  | cons w rest ih =>
    rw [List.map_cons, List.nodup_cons] at hws
    have hw : (w.name, w.labels) ∉ g.map Metric.key :=
      hdisj w.key (by simp)
    have hkeys := keys_setGauge g w.name w.labels w.value
    rw [if_neg hw] at hkeys
    simp only [applyWrites, List.foldl_cons]
    have := ih (setGauge g w.name w.labels w.value) hws.2 (by
      intro k hk
      rw [hkeys, List.mem_append, List.mem_singleton]
      rintro (h | h)
      · exact hdisj k (by simp [hk]) h
      · apply hws.1
        have : w.key = k := by rw [h]; rfl
        rw [this]
        exact hk)
    simp only [applyWrites] at this
    rw [this, hkeys]
    simp [Metric.key]

theorem gaugeGet_applyWrites (ws : List Metric) (g : Gauges) (n : String) (l : List String) :
    gaugeGet (applyWrites g ws) n l =
      (gaugeGet (applyWrites [] ws) n l).or (gaugeGet g n l) := by
  induction ws generalizing g with
  | nil => simp [applyWrites, gaugeGet]
  | cons w rest ih =>
    have h1 := ih (setGauge g w.name w.labels w.value)
    have h2 := ih (setGauge [] w.name w.labels w.value)
    simp only [applyWrites, List.foldl_cons] at h1 h2 ⊢
    rw [h1, h2, gaugeGet_setGauge, gaugeGet_setGauge]
    cases gaugeGet (List.foldl (fun g w => setGauge g w.name w.labels w.value) [] rest) n l with
    | some x => simp
    | none =>
      by_cases h : w.name = n ∧ w.labels = l <;> simp [h, gaugeGet]

theorem key_of_mem_applyWrites (ws : List Metric) (g : Gauges) (m : Metric)
    (hm : m ∈ applyWrites g ws) : m.key ∈ g.map Metric.key ∨ m.key ∈ ws.map Metric.key := by
  induction ws generalizing g with
  | nil =>
    left
    exact List.mem_map_of_mem Metric.key (by simpa [applyWrites] using hm)
  | cons w rest ih =>
    simp only [applyWrites, List.foldl_cons] at hm
    rcases ih _ hm with h | h
    · rw [keys_setGauge] at h
      split_ifs at h
      · exact Or.inl h
      · rcases List.mem_append.1 h with h | h
        · exact Or.inl h
        · right
          rw [List.mem_singleton] at h
          rw [h]
          simp [Metric.key]
    · right
      simp [h]

/-! ## What a poll sends -/

theorem writesV1_names (stats : Stats) (exposed databases : List String) (w : Metric)
    (hw : w ∈ writesV1 stats exposed databases) : w.name ∈ gaugeVecNames := by
  simp only [writesV1, nodeStatsWrites, statusCodeWrites, databaseStatsWrites,
    activeTasksWrites, List.mem_append, List.mem_flatMap, List.mem_filterMap, List.mem_cons,
    List.mem_singleton, List.not_mem_nil, or_false, Option.map_eq_some'] at hw
  rcases hw with (⟨_, _, h⟩ | ⟨_, _, _, _, h⟩) | ⟨_, _, h⟩
  · rcases h with (h | ⟨_, _, _, _, h⟩) | h
    · rcases h with h | h | h | h | h | h | h <;> subst h <;> simp [gaugeVecNames]
    · subst h
      simp [gaugeVecNames]
    · rcases h with h | h | h | h | h | h | h | h | h | h | h <;> subst h <;> simp [gaugeVecNames]
  · rcases h with h | h | h <;> subst h <;> simp [gaugeVecNames]
  · rcases h with h | h | h | h | h <;> subst h <;> simp [gaugeVecNames]

theorem name_of_mem_collectV1 (stats : Stats) (exposed databases : List String) (m : Metric)
    (hm : m ∈ collectV1 [] stats exposed databases) : m.name ∈ gaugeVecNames := by
  rw [collectV1_eq] at hm
  rcases key_of_mem_applyWrites _ _ _ hm with h | h
  · simp at h
  · obtain ⟨w, hw, hk⟩ := List.mem_map.1 h
    have hn : w.name = m.name := congrArg Prod.fst hk
    rw [← hn]
    exact writesV1_names stats exposed databases w hw

theorem mem_applyWrites_iff (ws : List Metric) (g : Gauges) (hg : (g.map Metric.key).Nodup)
    (m : Metric) :
    m ∈ applyWrites g ws ↔
      m ∈ applyWrites [] ws ∨ (m ∈ g ∧ ∀ w ∈ applyWrites [] ws, w.key ≠ m.key) := by
  have hfresh : ((applyWrites [] ws).map Metric.key).Nodup :=
    nodup_applyWrites ws [] (by simp)
  rw [mem_iff_gaugeGet _ (nodup_applyWrites ws g hg), gaugeGet_applyWrites,
    mem_iff_gaugeGet _ hfresh, mem_iff_gaugeGet _ hg]
  cases hf : gaugeGet (applyWrites [] ws) m.name m.labels with
  | some x =>
    have hin : (m.name, m.labels) ∈ (applyWrites [] ws).map Metric.key := by
      by_contra hc
      rw [← gaugeGet_eq_none_iff, hf] at hc
      cases hc
    obtain ⟨w, hw, hk⟩ := List.mem_map.1 hin
    simp only [Option.or_some, Option.some.injEq]
    constructor
    · exact Or.inl
    · rintro (h | ⟨_, h⟩)
      · exact h
      · exact absurd hk (h w hw)
  | none =>
    have hout : (m.name, m.labels) ∉ (applyWrites [] ws).map Metric.key :=
      (gaugeGet_eq_none_iff _ _ _).1 hf
    simp only [Option.none_or, false_or, reduceCtorEq]
    constructor
    · intro h
      refine ⟨h, ?_⟩
      intro w hw hk
      apply hout
      have : (m.name, m.labels) = w.key := hk.symm
      rw [this]
      exact List.mem_map_of_mem Metric.key hw
    · exact fun h => h.1

/-- C7, as the code has it: a successful single-generation poll sends `up` as 1, every
observation a poll from an empty gauge state sends for the same `Stats`, and besides
these every observation left in a gauge vector by an earlier poll whose gauge and
label values this poll does not write, at its old value. -/
theorem collect_sends_fresh_and_stale (lib : Lib) (collectV2 : CollectV2) (e : Exporter)
    (stats : Stats) (m : Metric)
    (hstats : getStats lib e.client = .ok stats)
    (hv1 : stats.ApiVersion ≠ "2")
    (hkeys : (e.gauges.map Metric.key).Nodup) :
    m ∈ (collect lib collectV2 e).sent ↔
      m = ⟨"up", [], 1⟩ ∨
      m ∈ collectV1 [] stats exposedHttpStatusCodes e.databases ∨
      (m ∈ e.gauges ∧ m.name ∈ gaugeVecNames ∧
        ∀ w ∈ collectV1 [] stats exposedHttpStatusCodes e.databases, w.key ≠ m.key) := by
  rw [collect_of_ok lib collectV2 e stats hstats]
  simp only [if_neg hv1, List.mem_append, List.mem_singleton]
  constructor
  · rintro (h | h)
    · obtain ⟨hn, hm⟩ := name_of_mem_collected _ _ _ h
      rw [collectV1_eq, mem_applyWrites_iff _ _ hkeys] at hm
      rw [collectV1_eq]
      rcases hm with hm | ⟨hm, hw⟩
      · exact Or.inr (Or.inl hm)
      · exact Or.inr (Or.inr ⟨hm, hn, hw⟩)
    · exact Or.inl h
  · rintro (h | h | ⟨hm, hn, hw⟩)
    · exact Or.inr h
    · left
      refine mem_collected _ _ _ (name_of_mem_collectV1 _ _ _ _ h) ?_
      rw [collectV1_eq] at h ⊢
      exact (mem_applyWrites_iff _ _ hkeys m).2 (Or.inl h)
    · left
      refine mem_collected _ _ _ hn ?_
      rw [collectV1_eq] at hw ⊢
      exact (mem_applyWrites_iff _ _ hkeys m).2 (Or.inr ⟨hm, hw⟩)

/-- Witness of C7 as the code has it: the task counter of node `couchdb@localhost`,
left by the earlier poll, is sent again by a poll that sees no active task. -/
theorem collect_sends_fresh_and_stale_witness :
    (⟨"activeTasks", ["couchdb@localhost"], 1⟩ : Metric) ∈
      (collect testLib noCollectV2 polledExporter).sent :=
  (collect_sends_fresh_and_stale testLib noCollectV2 polledExporter
    ⟨[("master", sampleNodeStats)], [("master", [])], [], "1"⟩
    ⟨"activeTasks", ["couchdb@localhost"], 1⟩ rfl (by decide) (by decide)).2
    (Or.inr (Or.inr ⟨by decide, by decide, by decide⟩))

/-- C7 fails as stated: the fresh and the polled exporter read the same `Stats` from the
test server, yet the polled one sends the task counter of node `couchdb@localhost`
left by its earlier poll, and the fresh one does not. -/
theorem collect_depends_on_earlier_polls :
    getStats testLib polledExporter.client = getStats testLib freshExporter.client ∧
    getStats testLib freshExporter.client =
      .ok ⟨[("master", sampleNodeStats)], [("master", [])], [], "1"⟩ ∧
    (⟨"activeTasks", ["couchdb@localhost"], 1⟩ : Metric) ∈
      (collect testLib noCollectV2 polledExporter).sent ∧
    (⟨"activeTasks", ["couchdb@localhost"], 1⟩ : Metric) ∉
      (collect testLib noCollectV2 freshExporter).sent :=
  ⟨rfl, rfl, by decide, by decide⟩

/-! ## The number of observations -/

theorem length_filter_or (g : Gauges) (p q : Metric → Bool)
    (hpq : ∀ m ∈ g, ¬ (p m = true ∧ q m = true)) :
    (g.filter p).length + (g.filter q).length = (g.filter (fun m => p m || q m)).length := by
  induction g with
  | nil => simp
  | cons m rest ih =>
    have hrest := ih (fun x hx => hpq x (List.mem_cons_of_mem _ hx))
    have hm := hpq m (List.mem_cons_self _ _)
    cases hp : p m <;> cases hq : q m <;>
      simp_all [List.filter_cons] <;> omega

theorem collected_length (g : Gauges) (names : List String) (hn : names.Nodup) :
    ((names.map (collectVec g)).flatten).length =
      (g.filter (fun m => decide (m.name ∈ names))).length := by
  induction names with
  | nil => simp
  | cons n rest ih =>
    rw [List.nodup_cons] at hn
    rw [List.map_cons, List.flatten_cons, List.length_append, ih hn.2]
    unfold collectVec
    rw [length_filter_or]
    · congr 1
      apply List.filter_congr
      intro m _
      by_cases h1 : m.name = n <;> by_cases h2 : m.name ∈ rest <;> simp [h1, h2]
    · intro m _ h
      simp only [decide_eq_true_eq] at h
      exact hn.1 (h.1 ▸ h.2)

theorem statusCodeWrites_keys (name : String) (nodeStats : StatsResponse) (codes : List String)
    (hcodes : ∀ code ∈ codes, mapGet nodeStats.HttpdStatusCodes code ≠ none) :
    (statusCodeWrites name nodeStats codes).map Metric.key =
      codes.map (fun code => ("httpdStatusCodes", [code, name])) := by
  induction codes with
  | nil => simp [statusCodeWrites]
  | cons code rest ih =>
    have hrest := ih (fun x hx => hcodes x (List.mem_cons_of_mem _ hx))
    obtain ⟨counter, hc⟩ := Option.ne_none_iff_exists'.1 (hcodes code (List.mem_cons_self _ _))
    simp only [statusCodeWrites] at hrest ⊢
    simp [List.filterMap_cons, hc, hrest, Metric.key]

theorem nodeStatsWrites_keys (name : String) (nodeStats : StatsResponse)
    (hcodes : ∀ code ∈ exposedHttpStatusCodes, mapGet nodeStats.HttpdStatusCodes code ≠ none) :
    (nodeStatsWrites exposedHttpStatusCodes name nodeStats).map Metric.key =
      nodeKeyTemplates.map (fun t => (t.1, t.2 ++ [name])) := by
  unfold nodeStatsWrites nodeKeyTemplates
  rw [List.map_append, List.map_append, statusCodeWrites_keys name nodeStats _ hcodes]
  simp [Metric.key]

theorem nodeKeys_nodup (nodes : GoMap StatsResponse) (hnodes : (mapKeys nodes).Nodup) :
    (nodes.flatMap (fun entry =>
      nodeKeyTemplates.map (fun t => (t.1, t.2 ++ [entry.1])))).Nodup := by
  rw [List.nodup_flatMap]
  constructor
  · intro entry _
    apply List.Nodup.map
    · intro a b hab
      simp only [Prod.mk.injEq, List.append_cancel_right_eq] at hab
      exact Prod.ext hab.1 hab.2
    · decide
  · unfold mapKeys at hnodes
    rw [List.Nodup, List.pairwise_map] at hnodes
    refine hnodes.imp ?_
    intro a b hab
    simp only [Function.onFun]
    intro k hka hkb
    obtain ⟨ta, -, rfl⟩ := List.mem_map.1 hka
    obtain ⟨tb, -, hk⟩ := List.mem_map.1 hkb
    simp only [Prod.mk.injEq] at hk
    have := List.append_inj' hk.2 rfl
    simp only [List.cons.injEq, and_true] at this
    exact hab this.2.symm

/-- C8: a successful single-generation poll from an empty gauge state, with `n` nodes in
`StatsByNodeName` that each report all 13 exposed status codes, no database
configured and no active task, sends `31 * n + 1` observations. -/
theorem collect_sends_31_per_node (lib : Lib) (collectV2 : CollectV2) (e : Exporter)
    (stats : Stats)
    (hfresh : e.gauges = [])
    (hstats : getStats lib e.client = .ok stats)
    (hv1 : stats.ApiVersion ≠ "2")
    (hnodes : (mapKeys stats.StatsByNodeName).Nodup)
    (hcodes : ∀ entry ∈ stats.StatsByNodeName, ∀ code ∈ exposedHttpStatusCodes,
      mapGet entry.2.HttpdStatusCodes code ≠ none)
    (hdatabases : e.databases = [])
    (htasks : stats.ActiveTasksResponse = []) :
    (collect lib collectV2 e).sent.length = 31 * stats.StatsByNodeName.length + 1 := by
  rw [collect_of_ok lib collectV2 e stats hstats]
  simp only [if_neg hv1, List.length_append, List.length_singleton, hfresh, hdatabases]
  rw [collected_length _ _ (by decide), collectV1_eq]
  have hws : writesV1 stats exposedHttpStatusCodes [] =
      stats.StatsByNodeName.flatMap
        (fun entry => nodeStatsWrites exposedHttpStatusCodes entry.1 entry.2) := by
    simp [writesV1, htasks, aggregateActiveTasks]
  have hkeys : (writesV1 stats exposedHttpStatusCodes []).map Metric.key =
      stats.StatsByNodeName.flatMap
        (fun entry => nodeKeyTemplates.map (fun t => (t.1, t.2 ++ [entry.1]))) := by
    rw [hws, List.map_flatMap]
    apply List.flatMap_congr
    intro entry hentry
    exact nodeStatsWrites_keys entry.1 entry.2 (hcodes entry hentry)
  have hgk := keys_applyWrites (writesV1 stats exposedHttpStatusCodes []) []
    (by rw [hkeys]; exact nodeKeys_nodup _ hnodes) (by simp)
  have hall : (applyWrites [] (writesV1 stats exposedHttpStatusCodes [])).filter
      (fun m => decide (m.name ∈ gaugeVecNames)) =
      applyWrites [] (writesV1 stats exposedHttpStatusCodes []) := by
    rw [List.filter_eq_self]
    intro m hm
    have := name_of_mem_collectV1 stats exposedHttpStatusCodes [] m (by rw [collectV1_eq]; exact hm)
    simpa using this
  rw [hall]
  have hlen := congrArg List.length hgk
  rw [List.length_map, List.map_nil, List.nil_append, hkeys] at hlen
  rw [hlen, List.length_flatMap]
  have hconst : List.map (List.length ∘ fun entry : String × StatsResponse =>
      nodeKeyTemplates.map (fun t => (t.1, t.2 ++ [entry.1]))) stats.StatsByNodeName =
      List.replicate stats.StatsByNodeName.length 31 := by
    rw [List.eq_replicate_iff]
    refine ⟨by simp, ?_⟩
    intro x hx
    obtain ⟨entry, -, rfl⟩ := List.mem_map.1 hx
    simp only [Function.comp, List.length_map]
    decide
  rw [hconst, List.sum_replicate]
  simp [mul_comm]

/-- Witness of C8: the single-generation test server, one node, 32 observations. -/
theorem collect_sends_31_per_node_witness :
    (collect testLib noCollectV2 freshExporter).sent.length = 31 * 1 + 1 :=
  collect_sends_31_per_node testLib noCollectV2 freshExporter
    ⟨[("master", sampleNodeStats)], [("master", [])], [], "1"⟩
    rfl rfl (by decide) (by decide) (by decide) rfl rfl

end CouchdbExporter
